import Mathlib

/-!
Verification development for the core of an early ThreadSanitizer v2 runtime
(tsan_rtl.cc).  The definitions below are a shallow embedding of the source:
machine words are `Nat` with explicit `% 2 ^ 64` where wraparound matters,
bit-packed values are packed and unpacked arithmetically, and the mutable
shadow cell, event trace and thread registry are passed explicitly.
Constants that the build fixes outside the visible sources (tsan_defs.h is
absent) are chosen per the specification and documented where they are used.
-/

namespace Tsan

/-- Modelled from the spec: tid field width (tsan_defs.h is not among the
sources; the spec gives 16 as the typical value). -/
def kTidBits : Nat := 16

/-- Modelled from the spec: epoch field width (typically 40). -/
def kClkBits : Nat := 40

/-- Modelled from the spec: shadow slots per 8-byte word (typically 8). -/
def kShadowCnt : Nat := 8

/-- Modelled from the spec: registry capacity; kept model-sized so that the
linear uid scan of ThreadJoin stays executable (the spec says typically
2 to the 16). -/
def kMaxTid : Nat := 8

/-- Modelled from the spec: trace ring capacity, model-sized. -/
def kTraceSize : Nat := 16

/-- Modelled from the spec: number of equal trace partitions (the spec and
TraceSwitch require several). -/
def kTraceParts : Nat := 4

/-- Events per trace partition, `kTraceSize / kTraceParts` in the source. -/
def partSize : Nat := kTraceSize / kTraceParts

/-- Modulus of a 64-bit machine word. -/
def u64Mod : Nat := 2 ^ 64

/-- The bit-packed shadow slot descriptor (union Shadow, tsan_rtl.cc):
fields tid(kTidBits) epoch(kClkBits) addr0(3) addr1(3) write(1), low to
high. -/
structure Shadow where
  tid : Nat
  epoch : Nat
  addr0 : Nat
  addr1 : Nat
  write : Bool
deriving DecidableEq, Repr

/-- The raw 64-bit value of a shadow descriptor, by bitfield layout:
tid at bit 0, epoch at bit 16, addr0 at bit 56, addr1 at bit 59, write at
bit 62. -/
def Shadow.raw (s : Shadow) : Nat :=
  s.tid % 2 ^ kTidBits + s.epoch % 2 ^ kClkBits * 2 ^ 16 +
    s.addr0 % 8 * 2 ^ 56 + s.addr1 % 8 * 2 ^ 59 +
    (if s.write then 1 else 0) * 2 ^ 62

/-- Reading the bitfields out of a raw 64-bit shadow slot value. -/
def unpackShadow (r : Nat) : Shadow :=
  ⟨r % 2 ^ 16, r / 2 ^ 16 % 2 ^ 40, r / 2 ^ 56 % 8, r / 2 ^ 59 % 8,
    decide (r / 2 ^ 62 % 2 = 1)⟩

/-- Modelled from the spec: the event type enumeration of tsan_trace.h
(absent from the sources); the spec lists the order Mop, FuncEnter,
FuncExit, Lock, Unlock, RLock, RUnlock, giving tags 0..6. -/
inductive EventType
  | mop
  | funcEnter
  | funcExit
  | lock
  | unlock
  | rlock
  | runlock
deriving DecidableEq, Repr

/-- Numeric tag of an event type. -/
def EventType.toNat : EventType → Nat
  | .mop => 0
  | .funcEnter => 1
  | .funcExit => 2
  | .lock => 3
  | .unlock => 4
  | .rlock => 5
  | .runlock => 6

/-- Event packing, exactly as TraceAddEvent builds it:
`Event ev = (u64)addr | ((u64)typ << 61)` — note the pc is NOT masked to
61 bits by the source. -/
def packEvent (typ : EventType) (addr : Nat) : Nat :=
  addr % u64Mod ||| typ.toNat <<< 61

/-- What RestoreStack reads back as the event type: `ev >> 61`. -/
def recoverTyp (ev : Nat) : Nat := ev >>> 61

/-- What RestoreStack reads back as the pc:
`ev & 0xffffffffffffull` — a 48-bit mask, not a 61-bit one. -/
def recoverPC (ev : Nat) : Nat := ev &&& 0xffffffffffff

/-- Per-thread event trace: the event ring and the per-partition headers
(each header holds its partition's starting epoch, epoch0). -/
structure Trace where
  events : Nat → Nat
  headers : Nat → Nat

/-- A freshly zeroed trace (ThreadStart memsets the whole ThreadState). -/
def emptyTrace : Trace := ⟨fun _ => 0, fun _ => 0⟩

/-- TraceSwitch: record the new partition's starting epoch in its header. -/
def TraceSwitch (tr : Trace) (epoch : Nat) : Trace :=
  { tr with
    headers := fun j =>
      if j = epoch / partSize % kTraceParts then epoch else tr.headers j }

/-- TraceAddEvent: rotate the partition header when the epoch crosses a
partition boundary, then store the packed event at ring index
`epoch % kTraceSize`. -/
def TraceAddEvent (tr : Trace) (epoch : Nat) (typ : EventType) (addr : Nat) :
    Trace :=
  let tr1 := if epoch % partSize = 0 then TraceSwitch tr epoch else tr
  { tr1 with
    events := fun j =>
      if j = epoch % kTraceSize then packEvent typ addr else tr1.events j }

/-- State of the replay loop of RestoreStack: the (conceptually unbounded)
local stack buffer, the u64 cursor `pos`, and the list of buffer indices
the loop has written (recorded to reason about bounds). -/
structure ReplayState where
  buf : Nat → Nat
  pos : Nat
  writes : List Nat

/-- One iteration of RestoreStack's replay loop over one stored event:
Mop writes the pc at `pos`, FuncEnter writes the pc at `pos` and
increments `pos`, FuncExit decrements `pos` — all in u64 arithmetic, with
no bounds check on `pos`. -/
def replayStep (st : ReplayState) (ev : Nat) : ReplayState :=
  let typ := recoverTyp ev
  let pc := recoverPC ev
  if typ = EventType.mop.toNat then
    { st with
      buf := fun k => if k = st.pos then pc else st.buf k
      writes := st.writes ++ [st.pos] }
  else if typ = EventType.funcEnter.toNat then
    { buf := fun k => if k = st.pos then pc else st.buf k
      pos := (st.pos + 1) % u64Mod
      writes := st.writes ++ [st.pos] }
  else if typ = EventType.funcExit.toNat then
    { st with pos := (st.pos + (u64Mod - 1)) % u64Mod }
  else st

/-- Thread lifecycle states of a registry slot. -/
inductive ThreadStatus
  | invalid
  | created
  | running
  | finished
deriving DecidableEq, Repr

/-- Result of RestoreStack: the returned count, the frames the caller will
read (`stack[0..cnt)`), and every buffer index the call wrote. -/
structure RSOut where
  cnt : Nat
  frames : List Nat
  writes : List Nat
deriving DecidableEq, Repr

/-- RestoreStack, as the source has it: bail out with an empty stack when
the thread is not Running or the partition header shows the requested
epoch was rotated away; otherwise replay the events at ring indices
`0 .. epoch % partSize` (the source indexes `thr->trace.events[i]` with
`i` counted from 0, not from the partition start), then reverse
`stack[0..pos]` in place.  The parameter `n` is the caller-supplied
buffer capacity; the source receives it and never reads it.  `buf0` is
the arbitrary initial contents of the uninitialized local buffer. -/
def RestoreStack (status : ThreadStatus) (tr : Trace) (epoch n : Nat)
    (buf0 : Nat → Nat) : RSOut :=
  if status = ThreadStatus.running then
    if epoch < tr.headers (epoch / partSize % kTraceParts) then ⟨0, [], []⟩
    else
      let e := epoch % partSize
      let st := (List.range (e + 1)).foldl
        (fun s i => replayStep s (tr.events i)) ⟨buf0, 0, []⟩
      let pos := (st.pos + 1) % u64Mod
      let rev := (List.range (pos / 2 + 1)).foldl
        (fun (a : (Nat → Nat) × List Nat) i =>
          let j := (pos + (u64Mod - 1) - i) % u64Mod
          let pc := a.1 i
          (fun k => if k = j then pc else if k = i then a.1 j else a.1 k,
            a.2 ++ [i, j]))
        (st.buf, [])
      ⟨pos, (List.range pos).map rev.1, st.writes ++ rev.2⟩
  else ⟨0, [], []⟩

/-- Modelled from the spec: the same reconstruction, but replaying the
events of the partition that actually contains the epoch (spec 4.3:
"Replay events from the partition start"); it differs from the source's
RestoreStack only in the base ring index of the event reads. -/
def RestoreStackFromPart (status : ThreadStatus) (tr : Trace) (epoch n : Nat)
    (buf0 : Nat → Nat) : RSOut :=
  if status = ThreadStatus.running then
    if epoch < tr.headers (epoch / partSize % kTraceParts) then ⟨0, [], []⟩
    else
      let base := epoch / partSize % kTraceParts * partSize
      let e := epoch % partSize
      let st := (List.range (e + 1)).foldl
        (fun s i => replayStep s (tr.events (base + i))) ⟨buf0, 0, []⟩
      let pos := (st.pos + 1) % u64Mod
      let rev := (List.range (pos / 2 + 1)).foldl
        (fun (a : (Nat → Nat) × List Nat) i =>
          let j := (pos + (u64Mod - 1) - i) % u64Mod
          let pc := a.1 i
          (fun k => if k = j then pc else if k = i then a.1 j else a.1 k,
            a.2 ++ [i, j]))
        (st.buf, [])
      ⟨pos, (List.range pos).map rev.1, st.writes ++ rev.2⟩
  else ⟨0, [], []⟩

/-- A vector clock: logical mapping tid to epoch. -/
def Clock := Nat → Nat

/-- Clock read, `clock.get(tid)`. -/
def clockGet (c : Clock) (t : Nat) : Nat := c t

/-- Clock component overwrite, `clock.set(tid, epoch)`. -/
def clockSet (c : Clock) (t e : Nat) : Clock :=
  fun j => if j = t then e else c j

/-- Modelled from the spec: `acquire(other)` is pointwise max (spec 4.1;
tsan_clock.cc is not among the sources). -/
def clockAcquire (c other : Clock) : Clock :=
  fun j => max (c j) (other j)

/-- Modelled from the spec: `release(target)` makes the target
componentwise at least self (spec 4.1). -/
def clockRelease (self target : Clock) : Clock :=
  fun j => max (target j) (self j)

/-- An empty (freed) clock. -/
def zeroClock : Clock := fun _ => 0

/-- Per-thread detector state (ThreadState): tid, current epoch, the
last-synchronization epoch, the owned vector clock and the event trace. -/
structure ThrState where
  tid : Nat
  epoch : Nat
  fastSynchEpoch : Nat
  clock : Clock
  trace : Trace

/-- A registry slot (ThreadContext). -/
structure TCtx where
  status : ThreadStatus
  uid : Nat
  detached : Bool
  sync : Clock

/-- The thread registry: the sequential tid counter and the slot array. -/
structure Registry where
  threadSeq : Nat
  threads : Nat → TCtx

/-- Replace one registry slot. -/
def updThreads (reg : Registry) (t : Nat) (c : TCtx) : Registry :=
  { reg with threads := fun j => if j = t then c else reg.threads j }

/-- ThreadFree: the slot becomes Invalid, its uid is cleared and its sync
clock freed. -/
def ThreadFree (reg : Registry) (t : Nat) : Registry :=
  updThreads reg t
    { reg.threads t with status := .invalid, uid := 0, sync := zeroClock }

/-- Tag of a ThreadCreate outcome; `fatal` is a failed CHECK (Die). -/
inductive CreateTag
  | ok
  | fatal
deriving DecidableEq, Repr

/-- ThreadCreate, as the source has it: the new tid is the value of the
sequential counter `thread_seq` (not the smallest Invalid slot); a CHECK
demands that this slot be Invalid; the slot becomes Created with the
given uid and detached flag; and when the ALLOCATED tid is nonzero
(`if (tid)` in the source) the creating thread sets its own clock
component to its current epoch, sets fast_synch_epoch to that epoch, and
releases its clock into the new slot's sync clock. -/
def ThreadCreate (reg : Registry) (thr : ThrState) (uid : Nat) (det : Bool) :
    CreateTag × Nat × Registry × ThrState :=
  let tid := reg.threadSeq
  let reg1 : Registry := { reg with threadSeq := tid + 1 }
  if (reg1.threads tid).status = .invalid then
    let thr1 := if tid ≠ 0 then
        { thr with
          clock := clockSet thr.clock thr.tid thr.epoch
          fastSynchEpoch := thr.epoch }
      else thr
    let sync1 := if tid ≠ 0 then clockRelease thr1.clock (reg1.threads tid).sync
      else (reg1.threads tid).sync
    (.ok, tid,
      updThreads reg1 tid
        { status := .created, uid := uid, detached := det, sync := sync1 },
      thr1)
  else (.fatal, tid, reg1, thr)

/-- Tag of a ThreadFinish outcome. -/
inductive FinishTag
  | ok
  | fatal
deriving DecidableEq, Repr

/-- ThreadFinish: a detached thread's slot is freed at once; a non-detached
thread sets its clock component and fast_synch_epoch to its current epoch,
releases its clock into its slot's sync clock, and the slot becomes
Finished.  The CHECK that the slot is Running is modelled as `fatal`. -/
def ThreadFinish (reg : Registry) (thr : ThrState) :
    FinishTag × Registry × ThrState :=
  let tctx := reg.threads thr.tid
  if tctx.status = .running then
    if tctx.detached then (.ok, ThreadFree reg thr.tid, thr)
    else
      let thr1 := { thr with
        clock := clockSet thr.clock thr.tid thr.epoch
        fastSynchEpoch := thr.epoch }
      (.ok,
        updThreads reg thr.tid
          { tctx with status := .finished
                      sync := clockRelease thr1.clock tctx.sync },
        thr1)
  else (.fatal, reg, thr)

/-- The linear uid scan of ThreadJoin: the first slot whose uid matches and
whose status is not Invalid. -/
def findJoinTid (reg : Registry) (uid : Nat) : Option Nat :=
  (List.range kMaxTid).find? fun t =>
    decide ((reg.threads t).uid = uid ∧ (reg.threads t).status ≠ .invalid)

/-- Tag of a ThreadJoin outcome; `warned` is the non-fatal
"join of non-existent thread" path, `fatal` a failed CHECK. -/
inductive JoinTag
  | ok
  | warned
  | fatal
deriving DecidableEq, Repr

/-- ThreadJoin, as the source has it: if the uid scan fails, warn and
return with nothing changed; otherwise CHECK that the target is not
detached and CHECK that it is already Finished (there is no blocking
path — a Running target fails the CHECK), then acquire the target's sync
clock and free the target slot. -/
def ThreadJoin (reg : Registry) (thr : ThrState) (uid : Nat) :
    JoinTag × Registry × ThrState :=
  match findJoinTid reg uid with
  | none => (.warned, reg, thr)
  | some t =>
    let tctx := reg.threads t
    if tctx.detached then (.fatal, reg, thr)
    else if tctx.status = .finished then
      (.ok, ThreadFree reg t,
        { thr with clock := clockAcquire thr.clock tctx.sync })
    else (.fatal, reg, thr)

/-- Modelled from the spec: the sync object table maps a user address to a
mutex's sync clock (spec 4.2; tsan_sync.cc is not among the sources).
The per-object shadow accesses (`s->Read` and `s->Write`) touch only the
sync object's own shadow word and are outside every claim. -/
def SyncTab := Nat → Option Clock

/-- MutexLock: increment the epoch, append a Lock trace event, create the
sync object on the fly when the address is unknown, then set the thread's
own clock component to the new epoch and acquire the mutex clock.
fast_synch_epoch is not touched. -/
def MutexLock (tab : SyncTab) (thr : ThrState) (pc addr : Nat) :
    ThrState × SyncTab :=
  let epoch := thr.epoch + 1
  let thr1 := { thr with
    epoch := epoch
    trace := TraceAddEvent thr.trace epoch .lock addr }
  let m := match tab addr with
    | some c => c
    | none => zeroClock
  let tab1 : SyncTab := match tab addr with
    | some _ => tab
    | none => fun j => if j = addr then some zeroClock else tab j
  ({ thr1 with clock := clockAcquire (clockSet thr1.clock thr1.tid epoch) m },
    tab1)

/-- Tag of a MutexUnlock outcome. -/
inductive UnlockTag
  | ok
  | fatal
deriving DecidableEq, Repr

/-- MutexUnlock, as the source has it: increment the epoch and append an
Unlock trace event FIRST; then look the address up — an unknown address
fails the CHECK (fatal, no warning path); a known mutex gets the thread's
clock (with the thread's own component set to the new epoch, which also
becomes fast_synch_epoch) released into its clock. -/
def MutexUnlock (tab : SyncTab) (thr : ThrState) (pc addr : Nat) :
    UnlockTag × ThrState × SyncTab :=
  let epoch := thr.epoch + 1
  let thr1 := { thr with
    epoch := epoch
    trace := TraceAddEvent thr.trace epoch .unlock addr }
  match tab addr with
  | none => (.fatal, thr1, tab)
  | some c =>
    let thr2 := { thr1 with
      clock := clockSet thr1.clock thr1.tid epoch
      fastSynchEpoch := epoch }
    (.ok, thr2,
      fun j => if j = addr then some (clockRelease thr2.clock c) else tab j)

/-- One reported memory operation inside a race report. -/
structure ReportMop where
  tid : Nat
  addr : Nat
  size : Nat
  write : Bool
  stackCnt : Nat
  stack : List Nat
deriving DecidableEq, Repr

/-- A race report: the two conflicting accesses. -/
structure ReportD where
  mop0 : ReportMop
  mop1 : ReportMop
deriving DecidableEq, Repr

/-- Building one ReportMop from a raw shadow descriptor: tid, first byte
address, size, write flag, and the stack reconstructed at the recorded
(tid, epoch); ReportRace passes a 64-entry buffer. -/
def mkReportMop (getStatus : Nat → ThreadStatus) (getTrace : Nat → Trace)
    (buf0 : Nat → Nat) (a r : Nat) : ReportMop :=
  let s := unpackShadow r
  let rs := RestoreStack (getStatus s.tid) (getTrace s.tid) s.epoch 64 buf0
  ⟨s.tid, a + s.addr0, s.addr1 - s.addr0 + 1, s.write, rs.cnt, rs.frames⟩

/-- ReportRace: word-align the address, build the two access records (each
with its reconstructed stack), then consult the external suppression
hooks; the second component is whether the report is printed.  The
external Symbolizer only fills in the pc annotations and is omitted. -/
def ReportRace (getStatus : Nat → ThreadStatus) (getTrace : Nat → Trace)
    (buf0 : Nat → Nat) (isSup : List Nat → Bool)
    (onRep : ReportD → Bool → Bool) (addr s0raw s1raw : Nat) :
    ReportD × Bool :=
  let a := addr - addr % 8
  let rep : ReportD := ⟨mkReportMop getStatus getTrace buf0 a s0raw,
    mkReportMop getStatus getTrace buf0 a s1raw⟩
  (rep, !onRep rep (isSup rep.mop0.stack))

/-- Result of examining one shadow slot (MemoryAccess1): whether the scan
is done (the slot already summarizes this access), the slot's new raw
value, whether a relaxed store to the slot was performed, the updated
`replaced` flag, and the updated racy descriptor (0 when none). -/
structure MA1Out where
  done : Bool
  slot : Nat
  stored : Bool
  replaced : Bool
  racy : Nat
deriving DecidableEq, Repr

/-- MemoryAccess1, the per-slot classification of the source, branch for
branch: empty slot / equal range (same thread: same-synch-epoch hit,
read-to-write upgrade, stale-epoch replace; other thread:
happens-before replace, read-read, race) / intersecting range
(no slot mutation; same happens-before / read-read / race
classification) / disjoint range. -/
def MemoryAccess1 (clock : Clock) (ftid synch : Nat) (s0 : Shadow)
    (sraw : Nat) (is_write replaced : Bool) (racy : Nat) : MA1Out :=
  let s := unpackShadow sraw
  if sraw = 0 then
    if replaced then ⟨false, sraw, false, replaced, racy⟩
    else ⟨false, s0.raw, true, true, racy⟩
  else if s.addr0 = s0.addr0 ∧ s.addr1 = s0.addr1 then
    if s.tid = ftid then
      if synch ≤ s.epoch then
        if s.write = true ∨ is_write = false then
          ⟨true, sraw, false, replaced, racy⟩
        else ⟨false, if replaced then 0 else s0.raw, true, true, racy⟩
      else
        if s.write = false ∨ is_write = true then
          ⟨false, if replaced then 0 else s0.raw, true, true, racy⟩
        else ⟨false, sraw, false, replaced, racy⟩
    else
      if s.epoch ≤ clockGet clock s.tid then
        ⟨false, if replaced then 0 else s0.raw, true, true, racy⟩
      else if s.write = false ∧ is_write = false then
        ⟨false, sraw, false, replaced, racy⟩
      else ⟨false, sraw, false, replaced, sraw⟩
  else if max s0.addr0 s.addr0 ≤ min s0.addr1 s.addr1 then
    if s.tid = ftid then ⟨false, sraw, false, replaced, racy⟩
    else if s.epoch ≤ clockGet clock s.tid then
      ⟨false, sraw, false, replaced, racy⟩
    else if s.write = false ∧ is_write = false then
      ⟨false, sraw, false, replaced, racy⟩
    else ⟨false, sraw, false, replaced, sraw⟩
  else ⟨false, sraw, false, replaced, racy⟩

/-- State threaded through the shadow slot scan of MemoryAccess: the
shadow cell, the replaced flag, the racy descriptor, the early-return
flag, and the list of (slot index, stored raw value) relaxed stores
performed so far (recorded to reason about mutation counts). -/
structure ScanState where
  cell : Nat → Nat
  replaced : Bool
  racy : Nat
  done : Bool
  stores : List (Nat × Nat)

/-- One scan iteration: once `done` the loop body is skipped (the source
has returned); otherwise the slot at `idx` is examined and possibly
overwritten. -/
def scanStep (clock : Clock) (ftid synch : Nat) (s0 : Shadow)
    (is_write : Bool) (st : ScanState) (idx : Nat) : ScanState :=
  if st.done then st
  else
    let o := MemoryAccess1 clock ftid synch s0 (st.cell idx) is_write
      st.replaced st.racy
    { cell := fun j => if j = idx then o.slot else st.cell j
      replaced := o.replaced
      racy := o.racy
      done := o.done
      stores := st.stores ++ if o.stored then [(idx, o.slot)] else [] }

/-- The scan's starting offset within the cell, chosen by access size:
`addr & 7` for size 1, `addr & 6` for size 2, `addr & 4` for size 4,
else 0. -/
def shadowOff (addr size : Nat) : Nat :=
  if size = 1 then addr &&& 7
  else if size = 2 then addr &&& 6
  else if size = 4 then addr &&& 4
  else 0

/-- The slot indices in scan order: `(i + off) % kShadowCnt` for
`i = 0 .. kShadowCnt - 1`. -/
def scanIdxs (off : Nat) : List Nat :=
  (List.range kShadowCnt).map fun i => (i + off) % kShadowCnt

/-- The current access's shadow descriptor s0:
`{tid, epoch, addr&7, min((addr&7)+size-1, 7), is_write}`. -/
def accessShadow (tid epoch addr size : Nat) (is_write : Bool) : Shadow :=
  ⟨tid, epoch, addr &&& 7, min ((addr &&& 7) + size - 1) 7, is_write⟩

/-- Result of a MemoryAccess call. -/
structure MAOut where
  thr : ThrState
  cell : Nat → Nat
  reported : Bool
  racy : Nat
  scanStores : List (Nat × Nat)
  fallback : Option Nat
  done : Bool
  replaced : Bool

/-- The completed slot scan of one MemoryAccess call: MemoryAccess1 folded
over the kShadowCnt slot indices in scan order, starting from an untouched
cell. -/
def scanFin (thr : ThrState) (cell : Nat → Nat) (addr size : Nat)
    (is_write : Bool) : ScanState :=
  (scanIdxs (shadowOff addr size)).foldl
    (scanStep thr.clock thr.tid thr.fastSynchEpoch
      (accessShadow thr.tid (thr.epoch + 1) addr size is_write) is_write)
    ⟨cell, false, 0, false, []⟩

/-- MemoryAccess: increment the epoch, append a Mop trace event, build s0,
scan the kShadowCnt slots starting at the size-dependent offset (stopping
early if some slot already summarizes the access), then: report a race if
a racy slot was found and the scan was not cut short, and store s0 into
the pseudo-random slot `epoch % kShadowCnt` if the scan completed without
recording it. -/
def MemoryAccess (thr : ThrState) (cell : Nat → Nat)
    (pc addr size : Nat) (is_write : Bool) : MAOut :=
  let epoch := thr.epoch + 1
  let thr1 := { thr with
    epoch := epoch
    trace := TraceAddEvent thr.trace epoch .mop pc }
  let s0 := accessShadow thr.tid epoch addr size is_write
  let fin := scanFin thr cell addr size is_write
  let fb := !fin.done && !fin.replaced
  { thr := thr1
    cell := if fb then
        fun j => if j = epoch % kShadowCnt then s0.raw else fin.cell j
      else fin.cell
    reported := !fin.done && (fin.racy != 0)
    racy := fin.racy
    scanStores := fin.stores
    fallback := if fb then some (epoch % kShadowCnt) else none
    done := fin.done
    replaced := fin.replaced }

/-- A slot that makes the scan return early ("found a slot that holds
effectively the same info"): nonempty, equal byte range, same thread,
epoch at least the thread's synch epoch, and its write flag covers the
current access. -/
def sameSlotHit (ftid synch : Nat) (s0 : Shadow) (is_write : Bool)
    (r : Nat) : Prop :=
  r ≠ 0 ∧ (unpackShadow r).addr0 = s0.addr0 ∧
    (unpackShadow r).addr1 = s0.addr1 ∧ (unpackShadow r).tid = ftid ∧
    synch ≤ (unpackShadow r).epoch ∧
    ((unpackShadow r).write = true ∨ is_write = false)

instance (ftid synch : Nat) (s0 : Shadow) (w : Bool) (r : Nat) :
    Decidable (sameSlotHit ftid synch s0 w r) := by
  unfold sameSlotHit; infer_instance

/-- A slot the scan classifies as racy against the current access:
nonempty, recorded by another thread, overlapping byte range (equal or
intersecting), not ordered by happens-before (the current thread's clock
component for the recording thread is below the recorded epoch), and at
least one of the two accesses is a write. -/
def racySlot (clock : Clock) (ftid : Nat) (s0 : Shadow) (is_write : Bool)
    (r : Nat) : Prop :=
  r ≠ 0 ∧ (unpackShadow r).tid ≠ ftid ∧
    ((unpackShadow r).addr0 = s0.addr0 ∧ (unpackShadow r).addr1 = s0.addr1 ∨
      max s0.addr0 (unpackShadow r).addr0 ≤
        min s0.addr1 (unpackShadow r).addr1) ∧
    clockGet clock (unpackShadow r).tid < (unpackShadow r).epoch ∧
    ((unpackShadow r).write = true ∨ is_write = true)

instance (clock : Clock) (ftid : Nat) (s0 : Shadow) (w : Bool) (r : Nat) :
    Decidable (racySlot clock ftid s0 w r) := by
  unfold racySlot; infer_instance

/-- The (done, replaced, racy) component of one scan step, as a fold over
the slot VALUES in scan order; used to relate the stateful scan to the
original cell contents (each slot index is examined at most once, so the
examined value is the original one). -/
def stepVals (clock : Clock) (ftid synch : Nat) (s0 : Shadow) (w : Bool)
    (a : Bool × Bool × Nat) (r : Nat) : Bool × Bool × Nat :=
  if a.1 then a
  else
    let o := MemoryAccess1 clock ftid synch s0 r w a.2.1 a.2.2
    (o.done, o.replaced, o.racy)

/-- Invariant of the scan's store log: before anything is recorded the log
is empty; every store writes either s0 or zero; and at most one store
writes a nonzero value. -/
def storeInv (s0raw : Nat) (st : ScanState) : Prop :=
  (st.replaced = false → st.stores = []) ∧
  (∀ e ∈ st.stores, e.2 = s0raw ∨ e.2 = 0) ∧
  st.stores.countP (fun e => e.2 != 0) ≤ 1

/-- All-zero initial contents for the uninitialized stack buffer. -/
def zbuf : Nat → Nat := fun _ => 0

/-- Concrete thread state: tid 1 at epoch 9, synch epoch 5, having observed
thread 2 only up to epoch 3. -/
def thrC1 : ThrState :=
  ⟨1, 9, 5, fun t => if t = 1 then 9 else 3, emptyTrace⟩

/-- Concrete shadow cell: slot 0 holds tid 1's own up-to-date write of the
full word (epoch 6, at or after synch epoch 5); slot 1 holds thread 2's
unordered write of the full word at epoch 9. -/
def cellC1 : Nat → Nat := fun j =>
  if j = 0 then Shadow.raw ⟨1, 6, 0, 7, true⟩
  else if j = 1 then Shadow.raw ⟨2, 9, 0, 7, true⟩
  else 0

/-- The descriptor of the concrete access of thrC1 (8-byte write at 0). -/
def s0C1 : Shadow := accessShadow 1 10 0 8 true

/-- Concrete thread state for the double-mutation run: tid 1, epoch 6,
synch epoch 6. -/
def thrC2 : ThrState := ⟨1, 6, 6, fun _ => 0, emptyTrace⟩

/-- Concrete cell: slot 0 empty, slot 1 a stale (pre-synch) read of the
full word by the same thread. -/
def cellC2 : Nat → Nat := fun j =>
  if j = 1 then Shadow.raw ⟨1, 3, 0, 7, false⟩ else 0

/-- Concrete thread state used by several witnesses: tid 1, epoch 3,
synch epoch 1, empty clock. -/
def thrW : ThrState := ⟨1, 3, 1, zeroClock, emptyTrace⟩

/-- Concrete cell in which every slot records a disjoint byte range
(bytes 5..5) of another thread, so a 1-byte access at byte 0 matches no
slot and falls through to the pseudo-random store. -/
def cellB : Nat → Nat := fun _ => Shadow.raw ⟨2, 5, 5, 5, false⟩

/-- An Invalid registry slot. -/
def invalidCtx : TCtx := ⟨.invalid, 0, false, zeroClock⟩

/-- Registry with no slot matching uid 7. -/
def regNW : Registry := ⟨2, fun _ => invalidCtx⟩

/-- Registry in which uid 7 is slot 1 and still Running. -/
def regRW : Registry :=
  ⟨2, fun t => if t = 1 then ⟨.running, 7, false, zeroClock⟩ else invalidCtx⟩

/-- Registry in which uid 7 is slot 1, Finished and not detached, with a
nonzero sync clock. -/
def regFW : Registry :=
  ⟨2, fun t => if t = 1 then
      ⟨.finished, 7, false, fun j => if j = 0 then 4 else 0⟩
    else invalidCtx⟩

/-- Registry whose next sequential tid is 2 while slot 1 is already
Invalid (slot 0 is the running main thread). -/
def regC6 : Registry :=
  ⟨2, fun t => if t = 0 then ⟨.running, 1, false, zeroClock⟩ else invalidCtx⟩

/-- Registry whose next sequential slot is not Invalid, so ThreadCreate
fails its CHECK. -/
def regBW : Registry := ⟨0, fun _ => ⟨.running, 1, false, zeroClock⟩⟩

/-- Registry for the detached-finish case: slot 1 Running and detached. -/
def regD10 : Registry :=
  ⟨2, fun t => if t = 1 then ⟨.running, 7, true, zeroClock⟩ else invalidCtx⟩

/-- Concrete mutex clock that has seen thread 2 up to epoch 9. -/
def mClockW : Clock := fun t => if t = 2 then 9 else 0

/-- Concrete sync table knowing only address 5. -/
def tabW : SyncTab := fun a => if a = 5 then some mClockW else none

/-- Concrete raw descriptor for a report: thread 2's full-word write at
epoch 5. -/
def s1C4 : Nat := Shadow.raw ⟨2, 5, 0, 7, true⟩

/-- Concrete raw descriptor for a report: thread 1's full-word write at
epoch 9. -/
def s0C4 : Nat := Shadow.raw ⟨1, 9, 0, 7, true⟩

/-- External status lookup under which no thread is Running. -/
def getStatusW : Nat → ThreadStatus := fun _ => ThreadStatus.finished

/-- External trace lookup returning an empty trace. -/
def getTraceW : Nat → Trace := fun _ => emptyTrace

/-- Suppression hook that suppresses nothing. -/
def supFalse : List Nat → Bool := fun _ => false

/-- OnReport hook that keeps the suppression verdict unchanged. -/
def onRepId : ReportD → Bool → Bool := fun _ b => b

/-- The trace emitted by a thread that enters three functions at epochs
1..3 (partition 0) and performs a memory operation at pc 0x99 at epoch 4,
the first epoch of partition 1. -/
def trC3 : Trace :=
  TraceAddEvent
    (TraceAddEvent
      (TraceAddEvent (TraceAddEvent emptyTrace 1 .funcEnter 0x11)
        2 .funcEnter 0x12)
      3 .funcEnter 0x13)
    4 .mop 0x99

/-- The trace emitted by a thread whose partition starting at epoch 16
begins mid-call: a FuncExit at epoch 16 followed by a FuncEnter at
epoch 17. -/
def trC9 : Trace :=
  TraceAddEvent (TraceAddEvent emptyTrace 16 .funcExit 0) 17 .funcEnter 0x42

/-- The main thread's state: tid 0, epoch 3, fast_synch_epoch 1. -/
def thr0 : ThrState := ⟨0, 3, 1, zeroClock, emptyTrace⟩

/-- Registry after only thread 0 exists: next sequential tid is 1 and
slot 1 is Invalid. -/
def regCr : Registry :=
  ⟨1, fun t => if t = 0 then ⟨.running, 1, false, zeroClock⟩ else invalidCtx⟩

/-! Theorems. -/

/-- RestoreStack returns count 0, no frames and no buffer writes whenever
the thread is not Running or the requested epoch has been rotated out of
its partition. -/
theorem restoreStack_fail (status : ThreadStatus) (tr : Trace)
    (epoch n : Nat) (buf0 : Nat → Nat)
    (h : status ≠ ThreadStatus.running ∨
      epoch < tr.headers (epoch / partSize % kTraceParts)) :
    RestoreStack status tr epoch n buf0 = ⟨0, [], []⟩ := by
  unfold RestoreStack
  rcases h with h | h
  · rw [if_neg h]
  · by_cases hs : status = ThreadStatus.running
    · rw [if_pos hs, if_pos h]
    · rw [if_neg hs]

/-- C3: stack reconstruction is claimed to replay the events from the start
of the partition containing the epoch.  The source instead replays
`trace.events[0 .. epoch mod partSize]` from ring index 0.  Concretely:
a thread enters three functions at epochs 1..3 and performs a Mop at
pc 0x99 at epoch 4 (the first epoch of partition 1, whose header check
passes); the source's replay reads the stale partition-0 slot 0 and
returns the frame list [0], while replaying the partition that actually
contains epoch 4 returns [0x99]. -/
theorem C3_divergence :
    (RestoreStack ThreadStatus.running trC3 4 64 zbuf).frames = [0] ∧
    (RestoreStackFromPart ThreadStatus.running trC3 4 64 zbuf).frames =
      [0x99] ∧
    (RestoreStack ThreadStatus.running trC3 4 64 zbuf).frames ≠
      (RestoreStackFromPart ThreadStatus.running trC3 4 64 zbuf).frames := by
  decide

/-- C4: when stack reconstruction fails for one of the two accesses (the
thread is no longer Running, or the partition containing the recorded
epoch has rotated), RestoreStack yields an empty stack and ReportRace
still builds and submits the race report, with an empty frame list and
count 0 for that access; the print decision is exactly the external
suppression verdict, unaffected by the failure. -/
theorem C4_report_empty_stack (getStatus : Nat → ThreadStatus)
    (getTrace : Nat → Trace) (buf0 : Nat → Nat) (isSup : List Nat → Bool)
    (onRep : ReportD → Bool → Bool) (addr s0raw s1raw : Nat)
    (h : getStatus (unpackShadow s1raw).tid ≠ ThreadStatus.running ∨
      (unpackShadow s1raw).epoch <
        (getTrace (unpackShadow s1raw).tid).headers
          ((unpackShadow s1raw).epoch / partSize % kTraceParts)) :
    (ReportRace getStatus getTrace buf0 isSup onRep addr s0raw s1raw).1.mop1.stack
        = [] ∧
    (ReportRace getStatus getTrace buf0 isSup onRep addr s0raw s1raw).1.mop1.stackCnt
        = 0 ∧
    (ReportRace getStatus getTrace buf0 isSup onRep addr s0raw s1raw).2 =
      !onRep
        (ReportRace getStatus getTrace buf0 isSup onRep addr s0raw s1raw).1
        (isSup (ReportRace getStatus getTrace buf0 isSup onRep
          addr s0raw s1raw).1.mop0.stack) := by
  simp only [ReportRace, mkReportMop]
  rw [restoreStack_fail _ _ _ _ _ h]
  simp

/-- Witness for C4 at a concrete input: thread 2 (recorded in s1C4) is
Finished, so its stack comes back empty, count 0. -/
theorem C4_witness :
    (ReportRace getStatusW getTraceW zbuf supFalse onRepId 0 s0C4 s1C4).1.mop1.stack
        = [] ∧
    (ReportRace getStatusW getTraceW zbuf supFalse onRepId 0 s0C4 s1C4).1.mop1.stackCnt
        = 0 := by
  have h := C4_report_empty_stack getStatusW getTraceW zbuf supFalse onRepId
    0 s0C4 s1C4 (Or.inl (by decide))
  exact ⟨h.1, h.2.1⟩

/-- C5 (amended): ThreadJoin with an unknown uid warns and changes
nothing; joining a target that exists but is still Running fails the
Finished CHECK fatally (the implementation has no blocking path); joining
a Finished, non-detached target acquires the target's sync clock into the
caller's clock and frees the target slot (status Invalid). -/
theorem C5_join (regN regR regF : Registry) (thr : ThrState)
    (uid tR tF : Nat)
    (hN : findJoinTid regN uid = none)
    (hR : findJoinTid regR uid = some tR)
    (hRrun : (regR.threads tR).status = ThreadStatus.running)
    (hF : findJoinTid regF uid = some tF)
    (hFdet : (regF.threads tF).detached = false)
    (hFfin : (regF.threads tF).status = ThreadStatus.finished) :
    ThreadJoin regN thr uid = (JoinTag.warned, regN, thr) ∧
    (ThreadJoin regR thr uid).1 = JoinTag.fatal ∧
    (ThreadJoin regF thr uid).1 = JoinTag.ok ∧
    (ThreadJoin regF thr uid).2.2.clock =
      clockAcquire thr.clock (regF.threads tF).sync ∧
    ((ThreadJoin regF thr uid).2.1.threads tF).status =
      ThreadStatus.invalid := by
  refine ⟨?_, ?_, ?_, ?_, ?_⟩
  · simp [ThreadJoin, hN]
  · by_cases hd : (regR.threads tR).detached
    · simp [ThreadJoin, hR, hd]
    · simp [ThreadJoin, hR, hd, hRrun]
  · simp [ThreadJoin, hF, hFdet, hFfin]
  · simp [ThreadJoin, hF, hFdet, hFfin]
  · simp [ThreadJoin, hF, hFdet, hFfin, ThreadFree, updThreads]

/-- Counterexample to C5 as stated: in regRW, uid 7 is registered and
still Running, and ThreadJoin is fatal (a failed CHECK) instead of
blocking non-fatally. -/
theorem C5_cex :
    (ThreadJoin regRW thrW 7).1 = JoinTag.fatal ∧
    (regRW.threads 1).status = ThreadStatus.running ∧
    (regRW.threads 1).uid = 7 := by
  decide

/-- Witness for C5 at concrete inputs: unknown uid warns with no state
change; a Finished target is joined and freed. -/
theorem C5_witness :
    ThreadJoin regNW thrW 7 = (JoinTag.warned, regNW, thrW) ∧
    (ThreadJoin regFW thrW 7).1 = JoinTag.ok ∧
    ((ThreadJoin regFW thrW 7).2.1.threads 1).status =
      ThreadStatus.invalid := by
  have h := C5_join regNW regRW regFW thrW 7 1 1 (by decide) (by decide)
    (by decide) (by decide) (by decide) (by decide)
  exact ⟨h.1, h.2.2.1, h.2.2.2.2⟩

/-- C6 (amended): ThreadCreate allocates tid = thread_seq (the sequential
counter, incremented), not the smallest Invalid slot, and fatally checks
that this slot is Invalid; the slot becomes Created with the given uid and
detached flag; and when the allocated tid is nonzero the creating thread
sets its own clock component to its current epoch, sets fast_synch_epoch
to that epoch, and releases its clock into the new slot's sync clock. -/
theorem C6_create (reg regB : Registry) (thr : ThrState) (uid : Nat)
    (det : Bool)
    (hinv : (reg.threads reg.threadSeq).status = ThreadStatus.invalid)
    (htid : reg.threadSeq ≠ 0)
    (hB : (regB.threads regB.threadSeq).status ≠ ThreadStatus.invalid) :
    (ThreadCreate reg thr uid det).1 = CreateTag.ok ∧
    (ThreadCreate reg thr uid det).2.1 = reg.threadSeq ∧
    (ThreadCreate reg thr uid det).2.2.1.threadSeq = reg.threadSeq + 1 ∧
    ((ThreadCreate reg thr uid det).2.2.1.threads reg.threadSeq).status =
      ThreadStatus.created ∧
    ((ThreadCreate reg thr uid det).2.2.1.threads reg.threadSeq).uid = uid ∧
    ((ThreadCreate reg thr uid det).2.2.1.threads reg.threadSeq).detached =
      det ∧
    (ThreadCreate reg thr uid det).2.2.2.fastSynchEpoch = thr.epoch ∧
    (ThreadCreate reg thr uid det).2.2.2.clock =
      clockSet thr.clock thr.tid thr.epoch ∧
    ((ThreadCreate reg thr uid det).2.2.1.threads reg.threadSeq).sync =
      clockRelease (clockSet thr.clock thr.tid thr.epoch)
        (reg.threads reg.threadSeq).sync ∧
    (ThreadCreate regB thr uid det).1 = CreateTag.fatal := by
  unfold ThreadCreate
  simp [hinv, htid, hB, updThreads]

/-- Counterexample to C6 as stated: in regC6 slot 1 is Invalid (smallest
Invalid tid is 1) yet ThreadCreate hands out tid 2, the sequential
counter value. -/
theorem C6_cex :
    (ThreadCreate regC6 thrW 9 false).1 = CreateTag.ok ∧
    (ThreadCreate regC6 thrW 9 false).2.1 = 2 ∧
    (regC6.threads 1).status = ThreadStatus.invalid ∧ (1 : Nat) < 2 := by
  decide

/-- Witness for C6 at concrete inputs: regC6 allocates tid 2 = thread_seq;
regBW (whose next slot is Running) is fatal. -/
theorem C6_witness :
    (ThreadCreate regC6 thrW 9 false).2.1 = regC6.threadSeq ∧
    (ThreadCreate regC6 thrW 9 false).2.2.2.fastSynchEpoch = thrW.epoch ∧
    (ThreadCreate regBW thrW 9 false).1 = CreateTag.fatal := by
  obtain ⟨h1, h2, h3, h4, h5, h6, h7, h8, h9, h10⟩ :=
    C6_create regC6 regBW thrW 9 false (by decide) (by decide) (by decide)
  exact ⟨h2, h7, h10⟩

/-- C7 (amended): MutexUnlock on an address with no known sync object
first increments the epoch and appends the Unlock trace event, then fails
the `CHECK(s && ...)` fatally; there is no warning-and-return path, and
the clock, fast_synch_epoch and sync table are left unchanged. -/
theorem C7_unlock_unknown (tab : SyncTab) (thr : ThrState) (pc addr : Nat)
    (h : tab addr = none) :
    (MutexUnlock tab thr pc addr).1 = UnlockTag.fatal ∧
    (MutexUnlock tab thr pc addr).2.1.epoch = thr.epoch + 1 ∧
    (MutexUnlock tab thr pc addr).2.1.trace =
      TraceAddEvent thr.trace (thr.epoch + 1) EventType.unlock addr ∧
    (MutexUnlock tab thr pc addr).2.1.fastSynchEpoch =
      thr.fastSynchEpoch ∧
    (MutexUnlock tab thr pc addr).2.1.clock = thr.clock ∧
    (MutexUnlock tab thr pc addr).2.2 = tab := by
  unfold MutexUnlock
  simp [h]

/-- Counterexample to C7 as stated: unlocking unknown address 5 is fatal
(not a logged warning) and has already mutated state: the epoch advanced
from 3 to 4. -/
theorem C7_cex :
    (MutexUnlock (fun _ => none) thrW 0 5).1 = UnlockTag.fatal ∧
    (MutexUnlock (fun _ => none) thrW 0 5).2.1.epoch = 4 := by
  exact ⟨rfl, rfl⟩

/-- Witness for C7 at a concrete input. -/
theorem C7_witness :
    (MutexUnlock (fun _ => none) thrW 1 6).1 = UnlockTag.fatal ∧
    (MutexUnlock (fun _ => none) thrW 1 6).2.1.fastSynchEpoch =
      thrW.fastSynchEpoch := by
  have h := C7_unlock_unknown (fun _ => none) thrW 1 6 rfl
  exact ⟨h.1, h.2.2.2.1⟩

/-- C9: the replay loop of RestoreStack never checks its cursor against
the caller-supplied buffer size n (the parameter is never read).  On the
trace trC9, whose partition at epoch 16 starts with a FuncExit (the
thread was mid-call at the partition boundary), the pop underflows the
u64 cursor and the following FuncEnter writes buffer index 2^64 - 1,
far beyond the 64-entry buffer ReportRace supplies. -/
theorem C9_oob :
    ((RestoreStack ThreadStatus.running trC9 17 64 zbuf).writes.contains
      (2 ^ 64 - 1)) = true ∧
    ¬(2 ^ 64 - 1 < 64) := by
  decide

/-- C10: MutexLock increments the epoch, sets the thread's own clock
component to the new epoch and acquires the mutex clock, but leaves
fast_synch_epoch unchanged; the release-side operations advance it to the
thread's current epoch: MutexUnlock (to the incremented epoch),
ThreadCreate when the allocated tid is nonzero (the registry has already
handed out tid 0), and non-detached ThreadFinish — while detached
ThreadFinish leaves it unchanged. -/
theorem C10_fast_synch (tab : SyncTab) (thr : ThrState) (addr pc : Nat)
    (m : Clock) (hm : tab addr = some m)
    (reg regD : Registry) (uid2 : Nat) (det : Bool)
    (hseq : reg.threadSeq ≠ 0)
    (hinv : (reg.threads reg.threadSeq).status = ThreadStatus.invalid)
    (hrun : (reg.threads thr.tid).status = ThreadStatus.running)
    (hnd : (reg.threads thr.tid).detached = false)
    (hrunD : (regD.threads thr.tid).status = ThreadStatus.running)
    (hdD : (regD.threads thr.tid).detached = true) :
    (MutexLock tab thr pc addr).1.fastSynchEpoch = thr.fastSynchEpoch ∧
    (MutexLock tab thr pc addr).1.epoch = thr.epoch + 1 ∧
    (MutexLock tab thr pc addr).1.clock =
      clockAcquire (clockSet thr.clock thr.tid (thr.epoch + 1)) m ∧
    (MutexUnlock tab thr pc addr).2.1.fastSynchEpoch = thr.epoch + 1 ∧
    (ThreadCreate reg thr uid2 det).2.2.2.fastSynchEpoch = thr.epoch ∧
    (ThreadFinish reg thr).2.2.fastSynchEpoch = thr.epoch ∧
    (ThreadFinish regD thr).2.2.fastSynchEpoch = thr.fastSynchEpoch := by
  refine ⟨?_, ?_, ?_, ?_, ?_, ?_, ?_⟩
  · unfold MutexLock; simp [hm]
  · unfold MutexLock; simp [hm]
  · unfold MutexLock; simp [hm]
  · unfold MutexUnlock; simp [hm]
  · unfold ThreadCreate; simp [hinv, hseq]
  · unfold ThreadFinish; simp [hrun, hnd]
  · unfold ThreadFinish; simp [hrunD, hdD, ThreadFree, updThreads]

/-- Counterexample to C10 as stated: the source conditions the
creation-edge release on the ALLOCATED tid (`if (tid)`), not the creating
thread's tid.  Thread 0 (tid 0, fast_synch_epoch 1, epoch 3) creating the
thread that receives tid 1 has its fast_synch_epoch advanced to 3, an
advance performed by a ThreadCreate whose creating thread's tid is
zero — outside the claim's enumeration. -/
theorem C10_cex :
    (ThreadCreate regCr thr0 9 false).2.2.2.fastSynchEpoch = 3 ∧
    thr0.tid = 0 ∧ thr0.fastSynchEpoch = 1 ∧ (3 : Nat) ≠ 1 := by
  decide

/-- Witness for C10 at concrete inputs. -/
theorem C10_witness :
    (MutexLock tabW thrW 0 5).1.fastSynchEpoch = thrW.fastSynchEpoch ∧
    (MutexUnlock tabW thrW 0 5).2.1.fastSynchEpoch = thrW.epoch + 1 ∧
    (ThreadFinish regRW thrW).2.2.fastSynchEpoch = thrW.epoch ∧
    (ThreadFinish regD10 thrW).2.2.fastSynchEpoch =
      thrW.fastSynchEpoch := by
  obtain ⟨h1, h2, h3, h4, h5, h6, h7⟩ :=
    C10_fast_synch tabW thrW 5 0 mClockW rfl regRW regD10 9 false
      (by decide) (by decide) (by decide) (by decide) (by decide) (by decide)
  exact ⟨h1, h4, h6, h7⟩

/-- Counterexample to C8 as stated: at pc = 2^48 the packed event is
2^48 (type Mop), but reconstruction recovers `ev & 0xffffffffffff` = 0,
not the low 61 bits of the pc (which are 2^48). -/
theorem C8_cex :
    packEvent EventType.mop (2 ^ 48) = 2 ^ 48 ∧
    recoverPC (packEvent EventType.mop (2 ^ 48)) = 0 ∧
    2 ^ 48 % 2 ^ 61 = 2 ^ 48 ∧
    recoverPC (packEvent EventType.mop (2 ^ 48)) ≠ 2 ^ 48 % 2 ^ 61 := by
  decide

/-- C8 (amended): the appended event is `pc ||| (type << 61)` with the pc
NOT masked to 61 bits; for pc below 2^61 this coincides with the claimed
`(type << 61) | pc` and the type is recovered intact, but reconstruction
recovers only the low 48 bits of the pc (`ev & 0xffffffffffff`), which
equal the packed pc exactly when pc < 2^48. -/
theorem C8_pack (t : EventType) (pc : Nat) (h : pc < 2 ^ 61) :
    packEvent t pc = t.toNat <<< 61 ||| pc ∧
    recoverTyp (packEvent t pc) = t.toNat ∧
    recoverPC (packEvent t pc) = pc % 2 ^ 48 ∧
    (pc < 2 ^ 48 → recoverPC (packEvent t pc) = pc) := by
  have h64 : pc < u64Mod := lt_trans h (by norm_num [u64Mod])
  have hmod : pc % u64Mod = pc := Nat.mod_eq_of_lt h64
  have hsh : t.toNat <<< 61 = 2 ^ 61 * t.toNat := by
    rw [Nat.shiftLeft_eq, Nat.mul_comm]
  have hadd : t.toNat <<< 61 ||| pc = 2 ^ 61 * t.toNat + pc := by
    rw [hsh, ← Nat.mul_add_lt_is_or h]
  have hpk : packEvent t pc = 2 ^ 61 * t.toNat + pc := by
    unfold packEvent
    rw [hmod, Nat.lor_comm, hadd]
  have hre : 2 ^ 61 * t.toNat = 2 ^ 48 * (2 ^ 13 * t.toNat) := by ring
  refine ⟨?_, ?_, ?_, ?_⟩
  · rw [hpk, hadd]
  · unfold recoverTyp
    rw [hpk, Nat.shiftRight_eq_div_pow, Nat.mul_add_div (by positivity),
      Nat.div_eq_of_lt h, Nat.add_zero]
  · unfold recoverPC
    rw [hpk]
    have : (0xffffffffffff : Nat) = 2 ^ 48 - 1 := by norm_num
    rw [this, Nat.and_pow_two_sub_one_eq_mod, hre, Nat.mul_add_mod]
  · intro h48
    unfold recoverPC
    rw [hpk]
    have : (0xffffffffffff : Nat) = 2 ^ 48 - 1 := by norm_num
    rw [this, Nat.and_pow_two_sub_one_eq_mod, hre, Nat.mul_add_mod,
      Nat.mod_eq_of_lt h48]

/-- Witness for C8 at a concrete input: a FuncEnter event at pc 0x42. -/
theorem C8_witness :
    packEvent EventType.funcEnter 0x42 =
      EventType.funcEnter.toNat <<< 61 ||| 0x42 ∧
    recoverTyp (packEvent EventType.funcEnter 0x42) =
      EventType.funcEnter.toNat ∧
    recoverPC (packEvent EventType.funcEnter 0x42) = 0x42 := by
  have h := C8_pack EventType.funcEnter 0x42 (by norm_num)
  exact ⟨h.1, h.2.1, h.2.2.2 (by norm_num)⟩

/-- MemoryAccess1 returns "done" exactly on a sameSlotHit slot. -/
theorem ma1_done_iff (clock : Clock) (ftid synch : Nat) (s0 : Shadow)
    (r : Nat) (w rep : Bool) (racy : Nat) :
    (MemoryAccess1 clock ftid synch s0 r w rep racy).done = true ↔
      sameSlotHit ftid synch s0 w r := by
  simp only [MemoryAccess1, sameSlotHit, clockGet]
  split_ifs <;> simp_all <;> first | tauto | omega

/-- MemoryAccess1 sets the racy descriptor to the examined slot exactly on
a racySlot slot, and keeps it unchanged otherwise. -/
theorem ma1_racy_of (clock : Clock) (ftid synch : Nat) (s0 : Shadow)
    (r : Nat) (w rep : Bool) (racy : Nat)
    (h : racySlot clock ftid s0 w r) :
    (MemoryAccess1 clock ftid synch s0 r w rep racy).racy = r := by
  simp only [MemoryAccess1, clockGet]
  simp only [racySlot, clockGet] at h
  split_ifs <;> simp_all <;> first | tauto | omega

/-- MemoryAccess1 keeps the racy descriptor unchanged on a slot that is
not racy. -/
theorem ma1_racy_of_not (clock : Clock) (ftid synch : Nat) (s0 : Shadow)
    (r : Nat) (w rep : Bool) (racy : Nat)
    (h : ¬ racySlot clock ftid s0 w r) :
    (MemoryAccess1 clock ftid synch s0 r w rep racy).racy = racy := by
  simp only [MemoryAccess1, clockGet]
  simp only [racySlot, clockGet] at h
  split_ifs <;> simp_all <;> first | tauto | omega

/-- When MemoryAccess1 stores, it marks the slot replaced and the stored
value is s0 on the first store of the call and 0 afterwards. -/
theorem ma1_of_stored (clock : Clock) (ftid synch : Nat) (s0 : Shadow)
    (r : Nat) (w rep : Bool) (racy : Nat)
    (h : (MemoryAccess1 clock ftid synch s0 r w rep racy).stored = true) :
    (MemoryAccess1 clock ftid synch s0 r w rep racy).replaced = true ∧
    (MemoryAccess1 clock ftid synch s0 r w rep racy).slot =
      (if rep then 0 else s0.raw) := by
  simp only [MemoryAccess1, clockGet] at *
  split_ifs at * <;> simp_all

/-- When MemoryAccess1 does not store, the replaced flag and the slot are
unchanged. -/
theorem ma1_of_not_stored (clock : Clock) (ftid synch : Nat) (s0 : Shadow)
    (r : Nat) (w rep : Bool) (racy : Nat)
    (h : (MemoryAccess1 clock ftid synch s0 r w rep racy).stored = false) :
    (MemoryAccess1 clock ftid synch s0 r w rep racy).replaced = rep ∧
    (MemoryAccess1 clock ftid synch s0 r w rep racy).slot = r := by
  simp only [MemoryAccess1, clockGet] at *
  split_ifs at * <;> simp_all

/-- The scan indices are pairwise distinct. -/
theorem scanIdxs_nodup (off : Nat) : (scanIdxs off).Nodup := by
  unfold scanIdxs
  refine List.Nodup.map_on ?_ (List.nodup_range _)
  intro x hx y hy hxy
  simp only [List.mem_range, kShadowCnt] at hx hy hxy
  omega

/-- The scan indices are exactly the slot indices below kShadowCnt. -/
theorem mem_scanIdxs (off j : Nat) : j ∈ scanIdxs off ↔ j < kShadowCnt := by
  unfold scanIdxs kShadowCnt
  simp only [List.mem_map, List.mem_range]
  constructor
  · rintro ⟨i, hi, rfl⟩
    exact Nat.mod_lt _ (by norm_num)
  · intro hj
    refine ⟨(j + 8 - off % 8) % 8, by omega, ?_⟩
    rw [Nat.add_mod]
    omega

/-- A scan whose accumulator is already done changes nothing. -/
theorem foldVals_frozen (clock : Clock) (ftid synch : Nat) (s0 : Shadow)
    (w : Bool) (l : List Nat) (a : Bool × Bool × Nat) (h : a.1 = true) :
    l.foldl (stepVals clock ftid synch s0 w) a = a := by
  induction l with
  | nil => rfl
  | cons r l ih =>
    simp only [List.foldl, stepVals, h, if_true]
    exact ih

/-- The flags of the stateful slot scan agree with the pure fold over the
examined slot VALUES, provided the examined indices are distinct and the
starting cell agrees with `f` on them (each slot is then examined exactly
once, at its original value). -/
theorem scan_flags_eq (clock : Clock) (ftid synch : Nat) (s0 : Shadow)
    (w : Bool) :
    ∀ (l : List Nat), l.Nodup → ∀ (st : ScanState) (f : Nat → Nat),
      (∀ j ∈ l, st.cell j = f j) →
      (((l.foldl (scanStep clock ftid synch s0 w) st).done,
        (l.foldl (scanStep clock ftid synch s0 w) st).replaced,
        (l.foldl (scanStep clock ftid synch s0 w) st).racy) =
        (l.map f).foldl (stepVals clock ftid synch s0 w)
          (st.done, st.replaced, st.racy)) := by
  intro l
  induction l with
  | nil => intro _ st f _; rfl
  | cons a l ih =>
    intro hnd st f hag
    have hmem : a ∈ a :: l := List.mem_cons_self a l
    have hnd' := (List.nodup_cons.mp hnd).2
    have hanotin := (List.nodup_cons.mp hnd).1
    simp only [List.foldl, List.map]
    by_cases hd : st.done
    · have hstep : scanStep clock ftid synch s0 w st a = st := by
        unfold scanStep; rw [if_pos hd]
      have hsv : stepVals clock ftid synch s0 w
          (st.done, st.replaced, st.racy) (f a) =
          (st.done, st.replaced, st.racy) := by
        unfold stepVals; rw [if_pos hd]
      rw [hstep, hsv]
      exact ih hnd' st f fun j hj => hag j (List.mem_cons_of_mem a hj)
    · have hda : st.done = false := Bool.eq_false_iff.mpr hd
      have hcell : st.cell a = f a := hag a hmem
      have hstep : scanStep clock ftid synch s0 w st a =
          { cell := fun j => if j = a then
                (MemoryAccess1 clock ftid synch s0 (f a) w st.replaced
                  st.racy).slot
              else st.cell j
            replaced := (MemoryAccess1 clock ftid synch s0 (f a) w
              st.replaced st.racy).replaced
            racy := (MemoryAccess1 clock ftid synch s0 (f a) w st.replaced
              st.racy).racy
            done := (MemoryAccess1 clock ftid synch s0 (f a) w st.replaced
              st.racy).done
            stores := st.stores ++
              if (MemoryAccess1 clock ftid synch s0 (f a) w st.replaced
                  st.racy).stored then
                [(a, (MemoryAccess1 clock ftid synch s0 (f a) w st.replaced
                  st.racy).slot)]
              else [] } := by
        unfold scanStep
        rw [if_neg hd, hcell]
      have hsv : stepVals clock ftid synch s0 w
          (st.done, st.replaced, st.racy) (f a) =
          ((MemoryAccess1 clock ftid synch s0 (f a) w st.replaced
              st.racy).done,
            (MemoryAccess1 clock ftid synch s0 (f a) w st.replaced
              st.racy).replaced,
            (MemoryAccess1 clock ftid synch s0 (f a) w st.replaced
              st.racy).racy) := by
        unfold stepVals
        rw [hda]
        simp
      rw [hstep, hsv]
      refine ih hnd' _ f ?_
      intro j hj
      have : j ≠ a := fun hja => hanotin (hja ▸ hj)
      simp only [this, if_false]
      exact hag j (List.mem_cons_of_mem a hj)

/-- The pure fold reaches "done" exactly when some examined value is a
sameSlotHit. -/
theorem foldVals_done_iff (clock : Clock) (ftid synch : Nat) (s0 : Shadow)
    (w : Bool) :
    ∀ (l : List Nat) (rep : Bool) (racy : Nat),
      ((l.foldl (stepVals clock ftid synch s0 w) (false, rep, racy)).1 =
          true) ↔
        ∃ r ∈ l, sameSlotHit ftid synch s0 w r := by
  intro l
  induction l with
  | nil => intro rep racy; simp
  | cons r l ih =>
    intro rep racy
    simp only [List.foldl, stepVals, Bool.false_eq_true, if_false]
    by_cases hs : sameSlotHit ftid synch s0 w r
    · have hdone : (MemoryAccess1 clock ftid synch s0 r w rep racy).done =
          true := (ma1_done_iff clock ftid synch s0 r w rep racy).mpr hs
      rw [hdone, foldVals_frozen clock ftid synch s0 w l _ rfl]
      constructor
      · intro _
        exact ⟨r, List.mem_cons_self r l, hs⟩
      · intro _
        rfl
    · have hdone : (MemoryAccess1 clock ftid synch s0 r w rep racy).done =
          false := by
        rcases hb : (MemoryAccess1 clock ftid synch s0 r w rep racy).done
        · rfl
        · exact absurd ((ma1_done_iff clock ftid synch s0 r w rep racy).mp
            hb) hs
      rw [hdone, ih]
      simp [hs]

/-- When no examined value is a sameSlotHit, the pure fold's racy
descriptor is nonzero exactly when it started nonzero or some examined
value is racy. -/
theorem foldVals_racy_iff (clock : Clock) (ftid synch : Nat) (s0 : Shadow)
    (w : Bool) :
    ∀ (l : List Nat), (∀ r ∈ l, ¬ sameSlotHit ftid synch s0 w r) →
      ∀ (rep : Bool) (racy : Nat),
      ((l.foldl (stepVals clock ftid synch s0 w) (false, rep, racy)).2.2 ≠
          0) ↔
        (racy ≠ 0 ∨ ∃ r ∈ l, racySlot clock ftid s0 w r) := by
  intro l
  induction l with
  | nil => intro _ rep racy; simp
  | cons r l ih =>
    intro hno rep racy
    have hnr : ¬ sameSlotHit ftid synch s0 w r :=
      hno r (List.mem_cons_self r l)
    have hdone : (MemoryAccess1 clock ftid synch s0 r w rep racy).done =
        false := by
      rcases hb : (MemoryAccess1 clock ftid synch s0 r w rep racy).done
      · rfl
      · exact absurd ((ma1_done_iff clock ftid synch s0 r w rep racy).mp hb)
          hnr
    have hno' : ∀ x ∈ l, ¬ sameSlotHit ftid synch s0 w x :=
      fun x hx => hno x (List.mem_cons_of_mem r hx)
    simp only [List.foldl, stepVals, Bool.false_eq_true, if_false]
    rw [hdone, ih hno']
    by_cases hr : racySlot clock ftid s0 w r
    · have := ma1_racy_of clock ftid synch s0 r w rep racy hr
      rw [this]
      have hrne : r ≠ 0 := hr.1
      constructor
      · rintro (h | h)
        · exact Or.inr ⟨r, List.mem_cons_self r l, hr⟩
        · exact Or.inr (by
            obtain ⟨x, hx, hxr⟩ := h
            exact ⟨x, List.mem_cons_of_mem r hx, hxr⟩)
      · intro _; exact Or.inl hrne
    · have := ma1_racy_of_not clock ftid synch s0 r w rep racy hr
      rw [this]
      constructor
      · rintro (h | h)
        · exact Or.inl h
        · obtain ⟨x, hx, hxr⟩ := h
          exact Or.inr ⟨x, List.mem_cons_of_mem r hx, hxr⟩
      · rintro (h | ⟨x, hx, hxr⟩)
        · exact Or.inl h
        · rcases List.mem_cons.mp hx with rfl | hx'
          · exact absurd hxr hr
          · exact Or.inr ⟨x, hx', hxr⟩

/-- C1 (amended): MemoryAccess invokes the race reporter if and only if
no shadow slot of the cell already summarizes the access for the same
thread (a sameSlotHit, which ends the scan early and suppresses
reporting) and some slot of the cell records an overlapping access of
another thread that the current thread's clock has not yet observed, with
at least one of the two accesses a write. -/
theorem C1_report_iff (thr : ThrState) (cell : Nat → Nat)
    (pc addr size : Nat) (w : Bool) :
    (MemoryAccess thr cell pc addr size w).reported = true ↔
      ((∀ j, j < kShadowCnt → ¬ sameSlotHit thr.tid thr.fastSynchEpoch
          (accessShadow thr.tid (thr.epoch + 1) addr size w) w (cell j)) ∧
        ∃ j, j < kShadowCnt ∧ racySlot thr.clock thr.tid
          (accessShadow thr.tid (thr.epoch + 1) addr size w) w (cell j)) := by
  have hrep : (MemoryAccess thr cell pc addr size w).reported =
      (!(scanFin thr cell addr size w).done &&
        ((scanFin thr cell addr size w).racy != 0)) := rfl
  have hflags := scan_flags_eq thr.clock thr.tid thr.fastSynchEpoch
    (accessShadow thr.tid (thr.epoch + 1) addr size w) w
    (scanIdxs (shadowOff addr size)) (scanIdxs_nodup _)
    ⟨cell, false, 0, false, []⟩ cell (fun _ _ => rfl)
  have hdone := congrArg Prod.fst hflags
  have hracy := congrArg (fun p : Bool × Bool × Nat => p.2.2) hflags
  dsimp only at hdone hracy
  have hfin : scanFin thr cell addr size w =
      (scanIdxs (shadowOff addr size)).foldl
        (scanStep thr.clock thr.tid thr.fastSynchEpoch
          (accessShadow thr.tid (thr.epoch + 1) addr size w) w)
        ⟨cell, false, 0, false, []⟩ := rfl
  have hsplit : ∀ (a : Bool) (b : Nat),
      ((!a && (b != 0)) = true) ↔ (a = false ∧ b ≠ 0) := by
    intro a b
    cases a <;> simp
  rw [hrep, hsplit, hfin, hdone, hracy]
  have hmapiff : ∀ P : Nat → Prop,
      (∃ r ∈ (scanIdxs (shadowOff addr size)).map cell, P r) ↔
        (∃ j, j < kShadowCnt ∧ P (cell j)) := by
    intro P
    simp only [List.mem_map]
    constructor
    · rintro ⟨r, ⟨j, hj, rfl⟩, hp⟩
      exact ⟨j, (mem_scanIdxs _ _).mp hj, hp⟩
    · rintro ⟨j, hj, hp⟩
      exact ⟨cell j, ⟨j, (mem_scanIdxs _ _).mpr hj, rfl⟩, hp⟩
  by_cases hsame : ∃ j, j < kShadowCnt ∧ sameSlotHit thr.tid
      thr.fastSynchEpoch (accessShadow thr.tid (thr.epoch + 1) addr size w)
      w (cell j)
  · have hdt : (((scanIdxs (shadowOff addr size)).map cell).foldl
        (stepVals thr.clock thr.tid thr.fastSynchEpoch
          (accessShadow thr.tid (thr.epoch + 1) addr size w) w)
        (false, false, 0)).1 = true := by
      rw [foldVals_done_iff]
      exact (hmapiff _).mpr hsame
    rw [hdt]
    constructor
    · rintro ⟨h, -⟩
      exact absurd h (by simp)
    · rintro ⟨hall, -⟩
      obtain ⟨j, hj, hs⟩ := hsame
      exact absurd hs (hall j hj)
  · have hnoall : ∀ r ∈ (scanIdxs (shadowOff addr size)).map cell,
        ¬ sameSlotHit thr.tid thr.fastSynchEpoch
          (accessShadow thr.tid (thr.epoch + 1) addr size w) w r := by
      intro r hr hs
      obtain ⟨j, hj, rfl⟩ := List.mem_map.mp hr
      exact hsame ⟨j, (mem_scanIdxs _ _).mp hj, hs⟩
    have hdt : (((scanIdxs (shadowOff addr size)).map cell).foldl
        (stepVals thr.clock thr.tid thr.fastSynchEpoch
          (accessShadow thr.tid (thr.epoch + 1) addr size w) w)
        (false, false, 0)).1 = false := by
      rcases hb : (((scanIdxs (shadowOff addr size)).map cell).foldl
          (stepVals thr.clock thr.tid thr.fastSynchEpoch
            (accessShadow thr.tid (thr.epoch + 1) addr size w) w)
          (false, false, 0)).1
      · rfl
      · rw [foldVals_done_iff] at hb
        exact absurd ((hmapiff _).mp hb) hsame
    rw [hdt]
    have hriff := foldVals_racy_iff thr.clock thr.tid thr.fastSynchEpoch
      (accessShadow thr.tid (thr.epoch + 1) addr size w) w
      ((scanIdxs (shadowOff addr size)).map cell) hnoall false 0
    constructor
    · rintro ⟨-, hne⟩
      rcases hriff.mp hne with h0 | hex
      · exact absurd rfl h0
      · exact ⟨fun j hj hs => hsame ⟨j, hj, hs⟩, (hmapiff _).mp hex⟩
    · rintro ⟨-, hex⟩
      exact ⟨rfl, hriff.mpr (Or.inr ((hmapiff _).mpr hex))⟩

/-- Counterexample to C1 as stated: in cellC1 slot 1 records an
overlapping unordered write by thread 2 (thrC1's clock component for
thread 2 is 3, below the recorded epoch 9, and both accesses are writes),
yet MemoryAccess does not invoke the reporter, because slot 0 (thrC1's
own up-to-date equal-range write) ends the scan early. -/
theorem C1_cex :
    racySlot thrC1.clock thrC1.tid s0C1 true (cellC1 1) ∧
    (MemoryAccess thrC1 cellC1 0 0 8 true).reported = false := by
  constructor
  · decide
  · decide

/-- One scan step preserves the store-log invariant. -/
theorem scanStep_inv (clock : Clock) (ftid synch : Nat) (s0 : Shadow)
    (w : Bool) (st : ScanState) (idx : Nat) (h : storeInv s0.raw st) :
    storeInv s0.raw (scanStep clock ftid synch s0 w st idx) := by
  unfold scanStep
  by_cases hd : st.done
  · rw [if_pos hd]
    exact h
  · rw [if_neg hd]
    obtain ⟨h1, h2, h3⟩ := h
    rcases hst : (MemoryAccess1 clock ftid synch s0 (st.cell idx) w
        st.replaced st.racy).stored
    · obtain ⟨hrep, -⟩ := ma1_of_not_stored clock ftid synch s0
        (st.cell idx) w st.replaced st.racy hst
      refine ⟨?_, ?_, ?_⟩ <;>
        simp only [hst, Bool.false_eq_true, if_false, List.append_nil, hrep]
      · exact h1
      · exact h2
      · exact h3
    · obtain ⟨hrep, hslot⟩ := ma1_of_stored clock ftid synch s0
        (st.cell idx) w st.replaced st.racy hst
      by_cases hb : st.replaced = true
      · have hsl : (MemoryAccess1 clock ftid synch s0 (st.cell idx) w
            st.replaced st.racy).slot = 0 := by
          rw [hslot, if_pos hb]
        refine ⟨?_, ?_, ?_⟩ <;> simp only [hst, if_true, hrep, hsl]
        · intro hcon
          exact absurd hcon (by simp)
        · intro e he
          rcases List.mem_append.mp he with he | he
          · exact h2 e he
          · simp only [List.mem_singleton] at he
            subst he
            exact Or.inr rfl
        · rw [List.countP_append]
          simpa [List.countP_cons] using h3
      · have hb' : st.replaced = false := Bool.eq_false_iff.mpr hb
        have hempty : st.stores = [] := h1 hb'
        have hsl : (MemoryAccess1 clock ftid synch s0 (st.cell idx) w
            st.replaced st.racy).slot = s0.raw := by
          rw [hslot, if_neg hb]
        refine ⟨?_, ?_, ?_⟩ <;>
          simp only [hst, if_true, hempty, hrep, hsl, List.nil_append]
        · intro hcon
          exact absurd hcon (by simp)
        · intro e he
          simp only [List.mem_singleton] at he
          subst he
          exact Or.inl rfl
        · simp only [List.countP_cons, List.countP_nil]
          split <;> simp

/-- The whole scan preserves the store-log invariant. -/
theorem foldl_scan_inv (clock : Clock) (ftid synch : Nat) (s0 : Shadow)
    (w : Bool) :
    ∀ (l : List Nat) (st : ScanState), storeInv s0.raw st →
      storeInv s0.raw (l.foldl (scanStep clock ftid synch s0 w) st) := by
  intro l
  induction l with
  | nil => intro st h; exact h
  | cons a l ih =>
    intro st h
    exact ih _ (scanStep_inv clock ftid synch s0 w st a h)

/-- C2 (amended): during the slot scan every relaxed store writes either
the current descriptor s0 or zero, and at most one store writes s0 (a
nonzero value) — the remaining mutations only clear stale duplicate slots
to zero; the pseudo-random fallback store to `cell[epoch mod kShadowCnt]`
happens only when the scan completed without performing any store at
all. -/
theorem C2_stores (thr : ThrState) (cell : Nat → Nat) (pc addr size : Nat)
    (w : Bool) :
    ((MemoryAccess thr cell pc addr size w).scanStores.all
      (fun e => (e.2 == (accessShadow thr.tid (thr.epoch + 1) addr size
        w).raw) || (e.2 == 0))) = true ∧
    (MemoryAccess thr cell pc addr size w).scanStores.countP
      (fun e => e.2 != 0) ≤ 1 ∧
    ((MemoryAccess thr cell pc addr size w).fallback.isSome = true →
      (MemoryAccess thr cell pc addr size w).scanStores = [] ∧
      (MemoryAccess thr cell pc addr size w).fallback =
        some ((thr.epoch + 1) % kShadowCnt)) := by
  have hsi : storeInv (accessShadow thr.tid (thr.epoch + 1) addr size
      w).raw (scanFin thr cell addr size w) := by
    apply foldl_scan_inv
    exact ⟨fun _ => rfl, by simp, by simp⟩
  obtain ⟨i1, i2, i3⟩ := hsi
  have hstores : (MemoryAccess thr cell pc addr size w).scanStores =
      (scanFin thr cell addr size w).stores := rfl
  have hfb : (MemoryAccess thr cell pc addr size w).fallback =
      (if !(scanFin thr cell addr size w).done &&
          !(scanFin thr cell addr size w).replaced then
        some ((thr.epoch + 1) % kShadowCnt)
      else none) := rfl
  refine ⟨?_, ?_, ?_⟩
  · rw [hstores, List.all_eq_true]
    intro e he
    rcases i2 e he with h | h <;> simp [h]
  · rw [hstores]
    exact i3
  · intro hs
    rw [hfb] at hs
    rcases hcond : (!(scanFin thr cell addr size w).done &&
        !(scanFin thr cell addr size w).replaced)
    · rw [hcond] at hs
      simp at hs
    · have hrepf : (scanFin thr cell addr size w).replaced = false := by
        rcases hb : (scanFin thr cell addr size w).replaced
        · rfl
        · rw [hb] at hcond
          simp at hcond
      refine ⟨hstores ▸ i1 hrepf, ?_⟩
      rw [hfb, hcond]
      simp

/-- Counterexample to C2 as stated: on cellC2 a single MemoryAccess call
performs TWO relaxed stores (s0 into the empty slot 0, then zero into the
stale duplicate slot 1), and neither is the fallback store (which does
not happen on this call). -/
theorem C2_cex :
    (MemoryAccess thrC2 cellC2 0 0 8 true).scanStores.length = 2 ∧
    (MemoryAccess thrC2 cellC2 0 0 8 true).fallback = none := by
  decide

/-- Witness for C2 at a concrete input with the fallback store: on cellB
(all slots disjoint from the access) the scan stores nothing and the
fallback picks slot `epoch mod kShadowCnt` = 4. -/
theorem C2_witness :
    (MemoryAccess thrW cellB 0 0 1 true).fallback.isSome = true ∧
    (MemoryAccess thrW cellB 0 0 1 true).scanStores = [] ∧
    (MemoryAccess thrW cellB 0 0 1 true).fallback = some 4 := by
  have h := (C2_stores thrW cellB 0 0 1 true).2.2 (by decide)
  exact ⟨by decide, h.1, h.2⟩

end Tsan
